import Mathlib

/-!
Verification of the batch test-run core of the AutoScriptGen repository
(`src/main.py`), shallowly embedded in Lean 4.

The embedding models:
- the data model (test-case records, attempts, per-case reports, run reports);
- the batch loop of `handle_test_run` (skip logic, generation-failure branch,
  report collection, the single store write at the end);
- the report store `REPORT_DB` and `view_report`.

The script generator (`services/gemini_client.generate_initial_script`), the
failure diagnoser, the subprocess executor and retry controller
(`mcp/executor.execute_test_case`) and the input parser
(`services/file_handler.parse_test_file`) live in files not present in the
source tree; they are taken as function parameters, and the retry controller
is modelled from the specification (section 4.4).
-/

namespace AutoScriptGen

/-- Outcome of an attempt / final status of a test case.
`main.py` uses the strings "Pass" and "Fail"; the data model also allows
"Error" for attempts. -/
inductive Outcome where
  | Pass
  | Fail
  | Error
deriving DecidableEq

/-- One parsed row of the input file.  `ident` is the value of the
field named TestCase Name/ID when that field is present (line 58 of
`main.py` supplies a positional default via `dict.get` when it is
missing); `fields` are the remaining field/value pairs of the row. -/
structure TestCase where
  ident : Option String
  fields : List (String × String)
deriving DecidableEq

/-- One recorded attempt, mirroring the history entries built in
`main.py` lines 72-77 (and, for executed attempts, the entries the retry
controller records). -/
structure Attempt where
  attempt : Nat
  script : String
  outcome : Outcome
  error : String
deriving DecidableEq

/-- Per-test-case report, mirroring the `test_report` dict of `main.py`. -/
structure TestCaseReport where
  test_case_id : String
  status : Outcome
  retries : Nat
  history : List Attempt
deriving DecidableEq

/-- Whole-run report, mirroring `final_report` of `main.py` lines 52-55. -/
structure RunReport where
  run_id : String
  test_cases : List TestCaseReport
deriving DecidableEq

/-- The error sentinel the generator embeds in its returned text on failure,
checked by `main.py` line 67. -/
def errorMarker : String := "# Gemini API Error"

/-- Substring containment, modelling the Python `in` operator on strings
as infix containment of the character sequences. -/
def strContains (s pat : String) : Bool :=
  decide (pat.data <:+: s.data)

/-- The generation-failure test of `main.py` line 67:
`if not initial_script or "# Gemini API Error" in initial_script`.
An absent/`None` result is modelled as the empty string, which Python
also treats as falsy. -/
def genFailed (s : String) : Bool :=
  s.isEmpty || strContains s errorMarker

/-- Identifier assigned to record number `i` (0-based); `main.py` line 58
reads the TestCase Name/ID field via `dict.get`, defaulting to the string
TestCase_ followed by the 1-based record number when the field is
missing, and stringifies the result. -/
def caseId (i : Nat) (tc : TestCase) : String :=
  match tc.ident with
  | some s => s
  | none => "TestCase_" ++ toString (i + 1)

/-- The terminal report built in `main.py` lines 68-78 when script
generation fails; `script` is the text returned by the generator. -/
def genFailureReport (tcid : String) (script : String) : TestCaseReport :=
  { test_case_id := tcid
    status := Outcome.Fail
    retries := 0
    history := [{ attempt := 1
                  script := "Failed to generate script from Gemini."
                  outcome := Outcome.Fail
                  error := script }] }

/-- Modelled from the spec: the execute/diagnose loop of the Retry
Controller (section 4.4), whose implementation `mcp/executor.py` is not in
the source tree.  `ex` is the script executor (script to outcome and
diagnostic text), `rep` the failure diagnoser (previous script and error
text to repaired script), `budget` the remaining retry budget, `n` the
1-based number of the attempt about to execute.  Each execution records an
attempt; `Pass` is terminal; on `Fail` with budget remaining the diagnoser
runs and, if it fails (section 4.1 semantics, detected as in `main.py`
line 67), the run ends `Exhausted` with a synthetic attempt carrying the
generation error; otherwise the repaired script is executed.  Returns the
attempt history and the terminal status. -/
def runAttempts (ex : String → Outcome × String) (rep : String → String → String)
    (budget : Nat) (script : String) (n : Nat) : List Attempt × Outcome :=
  let r := ex script
  let a : Attempt := { attempt := n, script := script, outcome := r.1, error := r.2 }
  if r.1 = Outcome.Pass then ([a], Outcome.Pass)
  else
    match budget with
    | 0 => ([a], Outcome.Fail)
    | Nat.succ b =>
      let s2 := rep script r.2
      if genFailed s2 then
        ([a, { attempt := n + 1, script := script, outcome := Outcome.Fail, error := s2 }],
         Outcome.Fail)
      else
        let rest := runAttempts ex rep b s2 (n + 1)
        (a :: rest.1, rest.2)

/-- Modelled from the spec: `mcp/executor.execute_test_case`
(`main.py` line 80 call site), which drives `runAttempts` starting from the
generated script with the configured maximum retries, and packages the
result as a TestCaseReport (retries consumed = executions beyond the
first). -/
def execute_test_case (ex : String → Outcome × String) (rep : String → String → String)
    (maxRetries : Nat) (tcid : String) (script : String) : TestCaseReport :=
  let r := runAttempts ex rep maxRetries script 1
  { test_case_id := tcid
    status := r.2
    retries := r.1.length - 1
    history := r.1 }

/-- The body of the batch loop of `main.py` lines 57-82 for record number
`i`: `none` when the record is skipped (`if not test_case_id: continue`),
otherwise the report produced for it (generation-failure branch or the
retry controller).  `gen` is the script generator. -/
def processRecord (gen : TestCase → String) (ex : String → Outcome × String)
    (rep : String → String → String) (maxRetries : Nat)
    (i : Nat) (tc : TestCase) : Option TestCaseReport :=
  let tcid := caseId i tc
  if tcid = "" then none
  else
    let s := gen tc
    if genFailed s then some (genFailureReport tcid s)
    else some (execute_test_case ex rep maxRetries tcid s)

/-- The batch loop of `main.py` lines 57-82 from record number `i` on:
`for i, test_case in enumerate(test_cases)` collecting the reports of the
non-skipped records in order. -/
def runBatchAux (gen : TestCase → String) (ex : String → Outcome × String)
    (rep : String → String → String) (maxRetries : Nat) :
    Nat → List TestCase → List TestCaseReport
  | _, [] => []
  | i, tc :: rest =>
    match processRecord gen ex rep maxRetries i tc with
    | none => runBatchAux gen ex rep maxRetries (i + 1) rest
    | some r => r :: runBatchAux gen ex rep maxRetries (i + 1) rest

/-- The whole batch loop, starting at record number 0. -/
def runBatch (gen : TestCase → String) (ex : String → Outcome × String)
    (rep : String → String → String) (maxRetries : Nat)
    (tcs : List TestCase) : List TestCaseReport :=
  runBatchAux gen ex rep maxRetries 0 tcs

/-- The in-memory report store `REPORT_DB` of `main.py` line 28, modelled
as an association list; a dict write prepends, so lookup sees the newest
binding for a key. -/
abbrev Store := List (String × RunReport)

/-- `REPORT_DB.get(run_id)` (`main.py` line 94). -/
def storeGet (db : Store) (k : String) : Option RunReport :=
  match db with
  | [] => none
  | (k2, v) :: rest => if k2 = k then some v else storeGet rest k

/-- `REPORT_DB[run_id] = final_report` (`main.py` line 87). -/
def storeSet (db : Store) (k : String) (v : RunReport) : Store :=
  (k, v) :: db

/-- Result of the `/run-tests` route: either the parse-error page
(`main.py` line 47) or the redirect to the report page (line 88). -/
inductive RunResult where
  | parseError (msg : String)
  | redirect (rid : String)
deriving DecidableEq

/-- `handle_test_run` (`main.py` lines 36-88).  Parsing
(`services.file_handler.parse_test_file`, not in the source tree) is taken
as its outcome `parsed`; `rid` is the fresh `str(uuid.uuid4())` of line 51.
Returns the response together with the resulting store. -/
def handle_test_run (parsed : Except String (List TestCase))
    (gen : TestCase → String) (ex : String → Outcome × String)
    (rep : String → String → String) (maxRetries : Nat)
    (rid : String) (db : Store) : RunResult × Store :=
  match parsed with
  | Except.error e => (RunResult.parseError e, db)
  | Except.ok tcs =>
    let reports := runBatch gen ex rep maxRetries tcs
    (RunResult.redirect rid,
     storeSet db rid { run_id := rid, test_cases := reports })

/-- Result of the `/report/{run_id}` route: the report page or the
"Report not found!" page. -/
inductive ViewResult where
  | found (r : RunReport)
  | notFound
deriving DecidableEq

/-- `view_report` (`main.py` lines 91-98).  The Python code tests
`if not report_data`; a stored report dict always carries its two keys and
is therefore truthy, so the test distinguishes exactly presence in the
store.  Returns the response together with the (unchanged) store. -/
def view_report (db : Store) (rid : String) : ViewResult × Store :=
  match storeGet db rid with
  | none => (ViewResult.notFound, db)
  | some r => (ViewResult.found r, db)

/-- State of the batch loop of `main.py` lines 57-85 between iterations:
the enumeration index, the records still pending, the reports collected in
`final_report["test_cases"]`, and the report store as observable at that
point. -/
structure BatchState where
  idx : Nat
  pending : List TestCase
  reports : List TestCaseReport
  db : Store
deriving DecidableEq

/-- One iteration of the batch loop (`main.py` lines 57-85): consume the
next pending record, skipping it or appending its report.  The loop body
never touches `REPORT_DB`, so the store component is carried through
unchanged. -/
def batchStep (gen : TestCase → String) (ex : String → Outcome × String)
    (rep : String → String → String) (maxRetries : Nat)
    (s : BatchState) : BatchState :=
  match s.pending with
  | [] => s
  | tc :: rest =>
    match processRecord gen ex rep maxRetries s.idx tc with
    | none => { idx := s.idx + 1, pending := rest, reports := s.reports, db := s.db }
    | some r => { idx := s.idx + 1, pending := rest, reports := s.reports ++ [r], db := s.db }

/-- `n` iterations of the batch loop. -/
def stepN (gen : TestCase → String) (ex : String → Outcome × String)
    (rep : String → String → String) (maxRetries : Nat) :
    Nat → BatchState → BatchState
  | 0, s => s
  | Nat.succ n, s => stepN gen ex rep maxRetries n (batchStep gen ex rep maxRetries s)

/-- The records the batch keeps, with their enumeration indices: the input
sequence in order with the skipped records removed
(`main.py` lines 57-61). -/
def keptRecords : Nat → List TestCase → List (Nat × TestCase)
  | _, [] => []
  | i, tc :: rest =>
    if caseId i tc = "" then keptRecords (i + 1) rest
    else (i, tc) :: keptRecords (i + 1) rest

/-- The report produced for a non-skipped record (`main.py` lines 65-80). -/
def reportFor (gen : TestCase → String) (ex : String → Outcome × String)
    (rep : String → String → String) (maxRetries : Nat)
    (i : Nat) (tc : TestCase) : TestCaseReport :=
  let s := gen tc
  if genFailed s then genFailureReport (caseId i tc) s
  else execute_test_case ex rep maxRetries (caseId i tc) s

/-- Claim-side reading of "number of input records with a non-empty
identifier": records whose identifier field is present and non-empty. -/
def countNonEmptyIdent (tcs : List TestCase) : Nat :=
  tcs.countP (fun tc =>
    match tc.ident with
    | some s => !s.isEmpty
    | none => false)

/-- Invariant of the report store: every stored report carries as its
`run_id` the key under which it is stored (`main.py` lines 51-55 and 87). -/
def storeInv (db : Store) : Prop :=
  ∀ k r, storeGet db k = some r → r.run_id = k

/-- Deterministic mock generator that always returns a fixed script. -/
def mockGen : TestCase → String := fun _ => "print(1)"

/-- The same mock generator written differently (same values). -/
def mockGen2 : TestCase → String := fun _ => "print" ++ "(1)"

/-- Deterministic mock executor whose runs always pass. -/
def mockExPass : String → Outcome × String := fun _ => (Outcome.Pass, "")

/-- The always-pass mock executor written differently (same values). -/
def mockExPass2 : String → Outcome × String := fun _ => (Outcome.Pass, "" ++ "")

/-- Deterministic mock executor whose runs always fail. -/
def mockExFail : String → Outcome × String := fun _ => (Outcome.Fail, "boom")

/-- Deterministic mock diagnoser returning the previous script unchanged. -/
def mockRep : String → String → String := fun s _ => s

/-- The identity mock diagnoser written differently (same values). -/
def mockRep2 : String → String → String := fun s _ => id s

/-- Mock generator that always fails with the sentinel marker. -/
def mockGenBad : TestCase → String := fun _ => "# Gemini API Error: boom"

/-- A sample record with a present, non-empty identifier. -/
def sampleTC : TestCase := { ident := some "T", fields := [] }

/-- A sample record whose identifier field is missing. -/
def tcNoIdent : TestCase := { ident := none, fields := [] }

/-- A sample stored run report. -/
def sampleRunReport : RunReport := { run_id := "r1", test_cases := [] }

/-- A sample store holding `sampleRunReport` under key r1. -/
def sampleStore : Store := [("r1", sampleRunReport)]

/-- The report the always-pass mocks produce for `sampleTC`. -/
def sampleReport : TestCaseReport := execute_test_case mockExPass mockRep 0 "T" "print(1)"

section Lemmas

variable (ex : String → Outcome × String) (rep : String → String → String)

/-- A record's identifier is empty exactly when its identifier field is
present with the empty value: a missing field receives the non-empty
positional default. -/
theorem caseId_eq_empty_iff (i : Nat) (tc : TestCase) :
    caseId i tc = "" ↔ tc.ident = some "" := by
  cases tc with
  | mk id fs =>
    cases id with
    | none =>
      simp only [caseId]
      constructor
      · intro h
        have h2 := congrArg String.length h
        simp [String.length_append] at h2
        exact absurd h2.1 (by decide)
      · intro h; cases h
    | some s => simp [caseId]

/-- Unfolding: a passing execution ends the loop at once. -/
theorem runAttempts_pass (b : Nat) (s : String) (n : Nat) (hp : (ex s).1 = Outcome.Pass) :
    runAttempts ex rep b s n =
      ([{ attempt := n, script := s, outcome := (ex s).1, error := (ex s).2 }], Outcome.Pass) := by
  cases b <;> simp [runAttempts, hp]

/-- Unfolding: a failing execution with no budget left is terminal. -/
theorem runAttempts_zero_fail (s : String) (n : Nat) (hp : (ex s).1 ≠ Outcome.Pass) :
    runAttempts ex rep 0 s n =
      ([{ attempt := n, script := s, outcome := (ex s).1, error := (ex s).2 }], Outcome.Fail) := by
  simp [runAttempts, hp]

/-- Unfolding: a failing execution followed by a failing repair is terminal
with a synthetic attempt carrying the generation error. -/
theorem runAttempts_succ_genfail (b : Nat) (s : String) (n : Nat)
    (hp : (ex s).1 ≠ Outcome.Pass) (hg : genFailed (rep s (ex s).2) = true) :
    runAttempts ex rep (b + 1) s n =
      ([{ attempt := n, script := s, outcome := (ex s).1, error := (ex s).2 },
        { attempt := n + 1, script := s, outcome := Outcome.Fail, error := rep s (ex s).2 }],
       Outcome.Fail) := by
  simp [runAttempts, hp, hg]

/-- Unfolding: a failing execution with budget left and a successful repair
recurses on the repaired script. -/
theorem runAttempts_succ_step (b : Nat) (s : String) (n : Nat)
    (hp : (ex s).1 ≠ Outcome.Pass) (hg : genFailed (rep s (ex s).2) = false) :
    runAttempts ex rep (b + 1) s n =
      ({ attempt := n, script := s, outcome := (ex s).1, error := (ex s).2 } ::
         (runAttempts ex rep b (rep s (ex s).2) (n + 1)).1,
       (runAttempts ex rep b (rep s (ex s).2) (n + 1)).2) := by
  simp [runAttempts, hp, hg]

/-- The retry loop records at least one attempt. -/
theorem runAttempts_ne_nil : ∀ (b : Nat) (s : String) (n : Nat),
    (runAttempts ex rep b s n).1 ≠ [] := by
  intro b
  induction b with
  | zero =>
    intro s n
    by_cases hp : (ex s).1 = Outcome.Pass
    · rw [runAttempts_pass ex rep 0 s n hp]; simp
    · rw [runAttempts_zero_fail ex rep s n hp]; simp
  | succ b ih =>
    intro s n
    by_cases hp : (ex s).1 = Outcome.Pass
    · rw [runAttempts_pass ex rep (b + 1) s n hp]; simp
    · by_cases hg : genFailed (rep s (ex s).2)
      · rw [runAttempts_succ_genfail ex rep b s n hp hg]; simp
      · rw [runAttempts_succ_step ex rep b s n hp (by simpa using hg)]; simp

/-- The retry loop records at most budget + 1 attempts. -/
theorem runAttempts_length : ∀ (b : Nat) (s : String) (n : Nat),
    (runAttempts ex rep b s n).1.length ≤ b + 1 := by
  intro b
  induction b with
  | zero =>
    intro s n
    by_cases hp : (ex s).1 = Outcome.Pass
    · rw [runAttempts_pass ex rep 0 s n hp]; simp
    · rw [runAttempts_zero_fail ex rep s n hp]; simp
  | succ b ih =>
    intro s n
    by_cases hp : (ex s).1 = Outcome.Pass
    · rw [runAttempts_pass ex rep (b + 1) s n hp]; simp
    · by_cases hg : genFailed (rep s (ex s).2)
      · rw [runAttempts_succ_genfail ex rep b s n hp hg]; simp
      · rw [runAttempts_succ_step ex rep b s n hp (by simpa using hg)]
        have := ih (rep s (ex s).2) (n + 1)
        simpa using Nat.succ_le_succ this

/-- The terminal status of the retry loop is `Pass` exactly when its last
recorded attempt passed. -/
theorem runAttempts_last_pass : ∀ (b : Nat) (s : String) (n : Nat),
    ((runAttempts ex rep b s n).2 = Outcome.Pass ↔
      (runAttempts ex rep b s n).1.getLast?.map Attempt.outcome = some Outcome.Pass) := by
  intro b
  induction b with
  | zero =>
    intro s n
    by_cases hp : (ex s).1 = Outcome.Pass
    · rw [runAttempts_pass ex rep 0 s n hp]; simp [hp]
    · rw [runAttempts_zero_fail ex rep s n hp]; simp [hp]
  | succ b ih =>
    intro s n
    by_cases hp : (ex s).1 = Outcome.Pass
    · rw [runAttempts_pass ex rep (b + 1) s n hp]; simp [hp]
    · by_cases hg : genFailed (rep s (ex s).2)
      · rw [runAttempts_succ_genfail ex rep b s n hp hg]; simp
      · rw [runAttempts_succ_step ex rep b s n hp (by simpa using hg)]
        have hne := runAttempts_ne_nil ex rep b (rep s (ex s).2) (n + 1)
        have hih := ih (rep s (ex s).2) (n + 1)
        rcases hl : (runAttempts ex rep b (rep s (ex s).2) (n + 1)).1 with _ | ⟨x, xs⟩
        · exact absurd hl hne
        · rw [hl] at hih
          simpa [List.getLast?_cons_cons] using hih

end Lemmas

section BatchLemmas

variable (gen : TestCase → String) (ex : String → Outcome × String)
variable (rep : String → String → String)

/-- The loop body as a conditional: skip exactly on an empty identifier,
otherwise produce the record's report. -/
theorem processRecord_eq (m i : Nat) (tc : TestCase) :
    processRecord gen ex rep m i tc =
      if caseId i tc = "" then none else some (reportFor gen ex rep m i tc) := by
  simp only [processRecord, reportFor]
  split
  · rfl
  · split <;> rfl

/-- Every produced report has a non-empty history of at most maxRetries + 1
attempts, and its status is `Pass` exactly when its last attempt passed. -/
theorem processRecord_sound (m i : Nat) (tc : TestCase) (r : TestCaseReport)
    (h : processRecord gen ex rep m i tc = some r) :
    r.history ≠ [] ∧ r.history.length ≤ m + 1 ∧
      (r.status = Outcome.Pass ↔
        r.history.getLast?.map Attempt.outcome = some Outcome.Pass) := by
  rw [processRecord_eq] at h
  split at h
  · cases h
  · rcases Option.some_injective _ h with rfl
    simp only [reportFor]
    split
    · refine ⟨by simp [genFailureReport], by simp [genFailureReport], ?_⟩
      simp [genFailureReport]
    · exact ⟨runAttempts_ne_nil ex rep m (gen tc) 1,
        by simpa [execute_test_case] using runAttempts_length ex rep m (gen tc) 1,
        runAttempts_last_pass ex rep m (gen tc) 1⟩

/-- Every report collected by the batch loop comes from some record. -/
theorem mem_runBatchAux (m : Nat) :
    ∀ (tcs : List TestCase) (i : Nat) (r : TestCaseReport),
      r ∈ runBatchAux gen ex rep m i tcs →
        ∃ j tc, processRecord gen ex rep m j tc = some r := by
  intro tcs
  induction tcs with
  | nil => intro i r h; cases h
  | cons tc rest ih =>
    intro i r h
    rw [runBatchAux] at h
    rcases hp : processRecord gen ex rep m i tc with _ | r2
    · rw [hp] at h
      exact ih (i + 1) r h
    · rw [hp] at h
      rcases List.mem_cons.mp h with h1 | h2
      · exact ⟨i, tc, by rw [hp, h1]⟩
      · exact ih (i + 1) r h2

/-- The batch loop is the kept records mapped to their reports. -/
theorem runBatchAux_map (m : Nat) :
    ∀ (tcs : List TestCase) (i : Nat),
      runBatchAux gen ex rep m i tcs =
        (keptRecords i tcs).map (fun p => reportFor gen ex rep m p.1 p.2) := by
  intro tcs
  induction tcs with
  | nil => intro i; rfl
  | cons tc rest ih =>
    intro i
    rw [runBatchAux, keptRecords, processRecord_eq]
    by_cases h : caseId i tc = ""
    · simp only [h, if_pos rfl, if_true]
      simpa using ih (i + 1)
    · simp only [if_neg h]
      simp [ih (i + 1)]

/-- The kept records are the enumerated input filtered by a non-empty
identifier, in input order. -/
theorem keptRecords_enumFrom :
    ∀ (tcs : List TestCase) (i : Nat),
      keptRecords i tcs =
        (List.enumFrom i tcs).filter (fun p => !(caseId p.1 p.2 == "")) := by
  intro tcs
  induction tcs with
  | nil => intro i; rfl
  | cons tc rest ih =>
    intro i
    rw [keptRecords, List.enumFrom]
    by_cases h : caseId i tc = ""
    · simp [h, ih (i + 1)]
    · simp [h, ih (i + 1)]

/-- How many records the batch keeps: those whose identifier field is not
present-and-empty. -/
theorem keptRecords_length :
    ∀ (tcs : List TestCase) (i : Nat),
      (keptRecords i tcs).length = tcs.countP (fun tc => !(tc.ident == some "")) := by
  intro tcs
  induction tcs with
  | nil => intro i; rfl
  | cons tc rest ih =>
    intro i
    rw [keptRecords, List.countP_cons]
    by_cases h : caseId i tc = ""
    · have h2 : tc.ident = some "" := (caseId_eq_empty_iff i tc).mp h
      simp [h, h2, ih (i + 1)]
    · have h2 : ¬ tc.ident = some "" := fun hh => h ((caseId_eq_empty_iff i tc).mpr hh)
      simp [h, h2, ih (i + 1)]

/-- The batch loop never touches the report store. -/
theorem batchStep_db (m : Nat) (s : BatchState) :
    (batchStep gen ex rep m s).db = s.db := by
  rcases s with ⟨i, pending, rs, db⟩
  cases pending with
  | nil => rfl
  | cons tc rest =>
    simp only [batchStep]
    rcases processRecord gen ex rep m i tc with _ | r <;> rfl

/-- Any number of batch-loop iterations leaves the report store unchanged. -/
theorem stepN_db (m : Nat) :
    ∀ (n : Nat) (s : BatchState), (stepN gen ex rep m n s).db = s.db := by
  intro n
  induction n with
  | zero => intro s; rfl
  | succ n ih =>
    intro s
    rw [stepN, ih, batchStep_db]

/-- Running the loop to completion consumes all records, collects exactly
the batch reports, and leaves the store untouched. -/
theorem stepN_run (m : Nat) :
    ∀ (tcs : List TestCase) (i : Nat) (rs : List TestCaseReport) (db0 : Store),
      stepN gen ex rep m tcs.length { idx := i, pending := tcs, reports := rs, db := db0 } =
        { idx := i + tcs.length, pending := [], reports := rs ++ runBatchAux gen ex rep m i tcs,
          db := db0 } := by
  intro tcs
  induction tcs with
  | nil => intro i rs db0; simp [stepN, runBatchAux]
  | cons tc rest ih =>
    intro i rs db0
    rw [List.length_cons, stepN, batchStep]
    simp only
    rcases hp : processRecord gen ex rep m i tc with _ | r
    · rw [ih (i + 1) rs db0, runBatchAux, hp]
      congr 1
      omega
    · rw [ih (i + 1) (rs ++ [r]) db0, runBatchAux, hp]
      congr 1
      · omega
      · simp

/-- Lookup after a store write. -/
theorem storeGet_set (db : Store) (k k2 : String) (v : RunReport) :
    storeGet (storeSet db k v) k2 = if k = k2 then some v else storeGet db k2 := rfl

/-- A write whose value carries the key as its run identifier preserves the
store invariant. -/
theorem storeInv_set (db : Store) (k : String) (v : RunReport) (h : storeInv db)
    (hv : v.run_id = k) : storeInv (storeSet db k v) := by
  intro k2 r hk
  rw [storeGet_set] at hk
  by_cases hkk : k = k2
  · rw [if_pos hkk] at hk
    obtain rfl : v = r := by injection hk
    rw [hv]
    exact hkk
  · rw [if_neg hkk] at hk
    exact h k2 r hk

/-- Under the store invariant, a successful retrieval returns a report
whose run identifier is the key used. -/
theorem view_found_of_inv (db : Store) (k : String) (r : RunReport)
    (hinv : storeInv db) (h : (view_report db k).1 = ViewResult.found r) :
    r.run_id = k := by
  unfold view_report at h
  rcases hg : storeGet db k with _ | r2
  · rw [hg] at h; cases h
  · rw [hg] at h
    cases h
    exact hinv k r hg

end BatchLemmas

/-- Claim C1, counterexample to the claim as stated: a record whose
identifier field is missing is not skipped — `main.py` line 58 substitutes
the positional default identifier and processes the record — so a batch of
one identifier-less record yields one TestCaseReport although it has zero
records with a non-empty identifier. -/
theorem claim_C1_counterexample :
    ¬ ((runBatch mockGen mockExPass mockRep 0 [tcNoIdent]).length =
        countNonEmptyIdent [tcNoIdent]) := by decide

/-- Claim C1 (amended): the batch run skips exactly those records whose
identifier field is present with an empty value — a record with a missing
identifier receives the positional default identifier and is processed —
so the number of TestCaseReports in the resulting RunReport equals the
number of input records whose identifier field is not present-and-empty,
and a skipped record contributes nothing while the batch continues with
the remaining records. -/
theorem claim_C1_amended (gen : TestCase → String) (ex : String → Outcome × String)
    (rep : String → String → String) (m : Nat) (tcs : List TestCase) :
    (runBatch gen ex rep m tcs).length =
      tcs.countP (fun tc => !(tc.ident == some "")) ∧
    (∀ i tc, tc.ident = some "" → processRecord gen ex rep m i tc = none) := by
  constructor
  · rw [runBatch, runBatchAux_map, List.length_map, keptRecords_length]
  · intro i tc h
    rw [processRecord_eq, if_pos ((caseId_eq_empty_iff i tc).mpr h)]

/-- Claim C1, witness: a concrete batch of one kept and one skipped
record. -/
theorem claim_C1_amended_witness :
    (runBatch mockGen mockExPass mockRep 0
        [sampleTC, { ident := some "", fields := [] }]).length =
      List.countP (fun tc => !(tc.ident == some ""))
        [sampleTC, { ident := some "", fields := [] }] ∧
    processRecord mockGen mockExPass mockRep 0 5 { ident := some "", fields := [] } = none :=
  ⟨(claim_C1_amended mockGen mockExPass mockRep 0
      [sampleTC, { ident := some "", fields := [] }]).1,
   (claim_C1_amended mockGen mockExPass mockRep 0
      [sampleTC, { ident := some "", fields := [] }]).2 5
      { ident := some "", fields := [] } rfl⟩

/-- Claim C2: for every test case whose script generation fails (empty
result or result containing the error sentinel), the batch records a
terminal TestCaseReport with status Fail, retries 0, and a history of
exactly one attempt whose diagnostic text is the generation error; the
script executor (and diagnoser) is never invoked for that test case — the
result does not depend on either. -/
theorem claim_C2 (gen : TestCase → String) (ex : String → Outcome × String)
    (rep : String → String → String) (m i : Nat) (tc : TestCase)
    (hid : caseId i tc ≠ "") (hf : genFailed (gen tc) = true) :
    processRecord gen ex rep m i tc =
      some { test_case_id := caseId i tc, status := Outcome.Fail, retries := 0,
             history := [{ attempt := 1, script := "Failed to generate script from Gemini.",
                           outcome := Outcome.Fail, error := gen tc }] } ∧
    (∀ (ex2 : String → Outcome × String) (rep2 : String → String → String),
      processRecord gen ex2 rep2 m i tc = processRecord gen ex rep m i tc) := by
  constructor
  · rw [processRecord_eq, if_neg hid]
    simp [reportFor, hf, genFailureReport]
  · intro ex2 rep2
    rw [processRecord_eq, processRecord_eq, if_neg hid, if_neg hid]
    simp [reportFor, hf]

/-- Claim C2, witness: a concrete generator returning the sentinel. -/
theorem claim_C2_witness :
    processRecord mockGenBad mockExPass mockRep 3 0 sampleTC =
      some { test_case_id := caseId 0 sampleTC, status := Outcome.Fail, retries := 0,
             history := [{ attempt := 1, script := "Failed to generate script from Gemini.",
                           outcome := Outcome.Fail, error := mockGenBad sampleTC }] } ∧
    processRecord mockGenBad mockExFail mockRep2 3 0 sampleTC =
      processRecord mockGenBad mockExPass mockRep 3 0 sampleTC :=
  ⟨(claim_C2 mockGenBad mockExPass mockRep 3 0 sampleTC (by decide) (by decide)).1,
   (claim_C2 mockGenBad mockExPass mockRep 3 0 sampleTC (by decide) (by decide)).2
      mockExFail mockRep2⟩

/-- Claim C3: every TestCaseReport produced by the batch run has a
non-empty attempt history, and its final status is Pass exactly when the
outcome of the last Attempt in its history is Pass. -/
theorem claim_C3 (gen : TestCase → String) (ex : String → Outcome × String)
    (rep : String → String → String) (m : Nat) (tcs : List TestCase)
    (r : TestCaseReport) (h : r ∈ runBatch gen ex rep m tcs) :
    r.history ≠ [] ∧
      (r.status = Outcome.Pass ↔
        r.history.getLast?.map Attempt.outcome = some Outcome.Pass) := by
  obtain ⟨j, tc, hp⟩ := mem_runBatchAux gen ex rep m tcs 0 r h
  obtain ⟨h1, _, h3⟩ := processRecord_sound gen ex rep m j tc r hp
  exact ⟨h1, h3⟩

/-- Claim C3, witness: the report of a concrete passing batch. -/
theorem claim_C3_witness :
    sampleReport.history ≠ [] ∧
      (sampleReport.status = Outcome.Pass ↔
        sampleReport.history.getLast?.map Attempt.outcome = some Outcome.Pass) :=
  claim_C3 mockGen mockExPass mockRep 0 [sampleTC] sampleReport (by decide)

/-- Claim C4: every TestCaseReport produced by the batch run has at least
1 and at most maxRetries + 1 attempts in its history; in the
generation-failure case the history has exactly one attempt, for any retry
budget. -/
theorem claim_C4 (gen : TestCase → String) (ex : String → Outcome × String)
    (rep : String → String → String) (m : Nat) (tcs : List TestCase) :
    (∀ r, r ∈ runBatch gen ex rep m tcs →
        1 ≤ r.history.length ∧ r.history.length ≤ m + 1) ∧
    (∀ i tc r, genFailed (gen tc) = true →
        processRecord gen ex rep m i tc = some r → r.history.length = 1) := by
  constructor
  · intro r h
    obtain ⟨j, tc, hp⟩ := mem_runBatchAux gen ex rep m tcs 0 r h
    obtain ⟨h1, h2, _⟩ := processRecord_sound gen ex rep m j tc r hp
    exact ⟨List.length_pos.mpr h1, h2⟩
  · intro i tc r hf hp
    rw [processRecord_eq] at hp
    split at hp
    · cases hp
    · rcases Option.some_injective _ hp with rfl
      simp [reportFor, hf, genFailureReport]

/-- Claim C4, witness: a concrete passing report and a concrete
generation-failure report. -/
theorem claim_C4_witness :
    (1 ≤ sampleReport.history.length ∧ sampleReport.history.length ≤ 0 + 1) ∧
    (genFailureReport "T" (mockGenBad sampleTC)).history.length = 1 :=
  ⟨(claim_C4 mockGen mockExPass mockRep 0 [sampleTC]).1 sampleReport (by decide),
   (claim_C4 mockGenBad mockExPass mockRep 5 [sampleTC]).2 0 sampleTC
      (genFailureReport "T" (mockGenBad sampleTC)) (by decide) (by decide)⟩

/-- Claim C5: the TestCaseReports of a batch are exactly the non-skipped
input records, in input order, each mapped to its report — and the kept
records are the enumerated input filtered by a non-empty identifier, so
the i-th report corresponds to the i-th non-skipped input record. -/
theorem claim_C5 (gen : TestCase → String) (ex : String → Outcome × String)
    (rep : String → String → String) (m : Nat) (tcs : List TestCase) :
    runBatch gen ex rep m tcs =
      (keptRecords 0 tcs).map (fun p => reportFor gen ex rep m p.1 p.2) ∧
    keptRecords 0 tcs = tcs.enum.filter (fun p => !(caseId p.1 p.2 == "")) := by
  exact ⟨runBatchAux_map gen ex rep m tcs 0, keptRecords_enumFrom tcs 0⟩

/-- Claim C6: during a batch run the report store is unchanged after any
number of loop iterations; the loop run to completion has collected all
the reports while still not touching the store; and the handler performs
exactly one store write, making the full RunReport visible only at the
end. -/
theorem claim_C6 (gen : TestCase → String) (ex : String → Outcome × String)
    (rep : String → String → String) (m : Nat) (rid : String) (db : Store)
    (tcs : List TestCase) :
    (∀ n, (stepN gen ex rep m n
        { idx := 0, pending := tcs, reports := [], db := db }).db = db) ∧
    (stepN gen ex rep m tcs.length
        { idx := 0, pending := tcs, reports := [], db := db }).reports =
      runBatch gen ex rep m tcs ∧
    (handle_test_run (Except.ok tcs) gen ex rep m rid db).2 =
      storeSet db rid { run_id := rid, test_cases := runBatch gen ex rep m tcs } := by
  refine ⟨fun n => stepN_db gen ex rep m n _, ?_, rfl⟩
  rw [stepN_run]
  simp [runBatch]

/-- Claim C7: report retrieval returns the stored RunReport when the run
identifier is present in the store and reports NotFound when it is
absent, leaving the store unchanged in both cases. -/
theorem claim_C7 (db : Store) (k : String) :
    (∀ r, storeGet db k = some r → view_report db k = (ViewResult.found r, db)) ∧
    (storeGet db k = none → view_report db k = (ViewResult.notFound, db)) := by
  constructor
  · intro r h; unfold view_report; rw [h]
  · intro h; unfold view_report; rw [h]

/-- Claim C7, witness: retrieval from a concrete one-report store with a
present and an absent key. -/
theorem claim_C7_witness :
    view_report sampleStore "r1" = (ViewResult.found sampleRunReport, sampleStore) ∧
    view_report sampleStore "zz" = (ViewResult.notFound, sampleStore) :=
  ⟨(claim_C7 sampleStore "r1").1 sampleRunReport (by decide),
   (claim_C7 sampleStore "zz").2 (by decide)⟩

/-- Claim C8: when parsing the input file fails, the handler returns the
parse error to the caller and the store is unchanged; since the result is
the same for every generator, executor and diagnoser, no test case is
produced or executed. -/
theorem claim_C8 (e : String) (gen : TestCase → String) (ex : String → Outcome × String)
    (rep : String → String → String) (m : Nat) (rid : String) (db : Store) :
    handle_test_run (Except.error e) gen ex rep m rid db = (RunResult.parseError e, db) := rfl

/-- Claim C9: the batch logic is deterministic in its collaborators — two
runs over the same records with pointwise-equal generator, executor and
diagnoser produce identical TestCaseReport lists. -/
theorem claim_C9 (gen1 gen2 : TestCase → String) (ex1 ex2 : String → Outcome × String)
    (rep1 rep2 : String → String → String) (m : Nat) (tcs : List TestCase)
    (hg : ∀ tc, gen1 tc = gen2 tc) (he : ∀ s, ex1 s = ex2 s)
    (hr : ∀ s t, rep1 s t = rep2 s t) :
    runBatch gen1 ex1 rep1 m tcs = runBatch gen2 ex2 rep2 m tcs := by
  have hg2 : gen1 = gen2 := funext hg
  have he2 : ex1 = ex2 := funext he
  have hr2 : rep1 = rep2 := funext fun s => funext fun t => hr s t
  rw [hg2, he2, hr2]

/-- Claim C9, witness: two syntactically different but pointwise-equal
mock triples give the same batch output. -/
theorem claim_C9_witness :
    runBatch mockGen mockExPass mockRep 2 [sampleTC] =
      runBatch mockGen2 mockExPass2 mockRep2 2 [sampleTC] :=
  claim_C9 mockGen mockGen2 mockExPass mockExPass2 mockRep mockRep2 2 [sampleTC]
    (fun _ => rfl) (fun _ => rfl) (fun _ _ => rfl)

/-- Claim C10: if every report already in the store is keyed by its own
run identifier, the same holds after a batch run (the handler stores the
RunReport under the very identifier written inside it), and any successful
retrieval from the resulting store returns a report whose run identifier
equals the key used to retrieve it. -/
theorem claim_C10 (parsed : Except String (List TestCase)) (gen : TestCase → String)
    (ex : String → Outcome × String) (rep : String → String → String) (m : Nat)
    (rid : String) (db : Store) (h : storeInv db) :
    storeInv (handle_test_run parsed gen ex rep m rid db).2 ∧
    (∀ k r, (view_report (handle_test_run parsed gen ex rep m rid db).2 k).1 =
        ViewResult.found r → r.run_id = k) := by
  have hinv : storeInv (handle_test_run parsed gen ex rep m rid db).2 := by
    cases parsed with
    | error e => exact h
    | ok tcs => exact storeInv_set db rid _ h rfl
  exact ⟨hinv, fun k r hk => view_found_of_inv _ k r hinv hk⟩

/-- Claim C10, witness: a concrete run stored into the empty store and
retrieved by its identifier. -/
theorem claim_C10_witness :
    RunReport.run_id
        { run_id := "r1", test_cases := runBatch mockGen mockExPass mockRep 0 [sampleTC] } =
      "r1" :=
  (claim_C10 (Except.ok [sampleTC]) mockGen mockExPass mockRep 0 "r1" []
      (fun k r hk => nomatch hk)).2 "r1"
    { run_id := "r1", test_cases := runBatch mockGen mockExPass mockRep 0 [sampleTC] }
    (by decide)

end AutoScriptGen
